import Mathlib

/-!
Verification of the NCBI sequence-scraper service (`src/main.py`).

The core of the program is:
* `extract_cds_translation_genbank` — searches GenBank text with the Python
  regex `CDS\s+.*?/translation="([^"]*)"` under `re.DOTALL | re.IGNORECASE`
  and strips all whitespace from the captured group;
* `get_genbank_content` — performs one HTTP GET and maps every failure to
  `None` (here: an HTTP oracle returning `Except`);
* `scrape_ncbi_sequences` — the sequential batch loop with a per-item
  `try/except` and an unconditional `asyncio.sleep(1)` after each item;
* `leer_accesiones_desde_contenido` — comma splitting with trimming.

Network and exception nondeterminism is modelled by oracles: each item of the
batch receives a `FetchResult` from the environment that says whether the
fetch produced content (`ok`), returned `None` (`failed`), or an unexpected
exception escaped to the item-level handler (`fault`).
-/

namespace NCBI

/-- Python's `\s` character class, restricted to its ASCII members
(space, tab, newline, carriage return, vertical tab, form feed). -/
def isSpace (c : Char) : Bool :=
  c = ' ' || c = '\t' || c = '\n' || c = '\r' || c = '\x0b' || c = '\x0c'

/-- The literal part `/translation="` of the regex (14 characters), written
in lowercase; `re.IGNORECASE` applies to the whole pattern, so this literal
is matched case-insensitively (see `ciPrefix`). -/
def transTag : List Char :=
  ['/', 't', 'r', 'a', 'n', 's', 'l', 'a', 't', 'i', 'o', 'n', '=', '"']

/-- Case-insensitive prefix test: the lowercase pattern `p` matches the
start of `l` when each pattern character equals the corresponding content
character after lowercasing — how `re.IGNORECASE` matches a literal
(non-letter characters are unaffected by `Char.toLower`). -/
def ciPrefix : List Char → List Char → Bool
  | [], _ => true
  | _ :: _, [] => false
  | p :: ps, c :: cs => (p == c.toLower) && ciPrefix ps cs

/-- The semantics of `[^"]*"` starting right after the opening quote:
collect characters up to the first `"`; `none` when no closing quote exists. -/
def takeUntilQuote : List Char → Option (List Char)
  | [] => none
  | c :: rest => if c = '"' then some [] else (takeUntilQuote rest).map (fun t => c :: t)

/-- The semantics of the lazy `.*?/translation="([^"]*)"` part of the regex
(under DOTALL, `.` matches every character; under IGNORECASE the literal is
matched case-insensitively): find the first occurrence of `/translation="`
and capture up to the next `"`.  When the first occurrence has no closing
quote the regex backtracks to a later occurrence, which this recursion
mirrors. -/
def findTranslation : List Char → Option (List Char)
  | [] => none
  | c :: rest =>
    if ciPrefix transTag (c :: rest) then
      match takeUntilQuote ((c :: rest).drop 14) with
      | some payload => some payload
      | none => findTranslation rest
    else findTranslation rest

/-- Whether `CDS\s` (case-insensitively, per `re.IGNORECASE`) matches at the
head of the list: three keyword characters followed by one whitespace
character (the mandatory first character of `\s+`; any further whitespace is
absorbed by the lazy `.*?` under DOTALL). -/
def matchesCdsAt : List Char → Bool
  | c :: d :: s :: w :: _ =>
      c.toLower = 'c' && d.toLower = 'd' && s.toLower = 's' && isSpace w
  | _ => false

/-- Leftmost-match search for the whole regex
`CDS\s+.*?/translation="([^"]*)"`: try every start position from the left;
at a start position where `CDS\s` matches, the payload is taken from the
first `/translation="..."` occurrence at or after offset 4 from the start. -/
def cdsSearch : List Char → Option (List Char)
  | [] => none
  | c :: rest =>
    if matchesCdsAt (c :: rest) then
      match findTranslation (rest.drop 3) with
      | some payload => some payload
      | none => cdsSearch rest
    else cdsSearch rest

/-- `extract_cds_translation_genbank` from `src/main.py`: regex search, then
`re.sub(r'\s+', '', raw_sequence)` — i.e. remove every whitespace character
from the captured payload — or `None` when the regex does not match. -/
def extract_cds_translation_genbank (genbank_content : String) : Option String :=
  match cdsSearch genbank_content.data with
  | some raw => some (String.mk (raw.filter (fun c => !isSpace c)))
  | none => none

/-- The URL built by `get_genbank_content`. -/
def ncbiUrl (accession : String) : String :=
  "https://www.ncbi.nlm.nih.gov/sviewer/viewer.fcgi?id=" ++ accession ++
    "&db=nuccore&report=genbank&retmode=text"

/-- `get_genbank_content` from `src/main.py`, over an HTTP oracle: the
oracle returns either the response text or the textual description of the
raised exception (timeout, non-2xx via `raise_for_status`, transport error).
Every failure is swallowed (`except Exception`) and mapped to `none`. -/
def get_genbank_content (http : String → Except String String)
    (accession : String) : Option String :=
  match http (ncbiUrl accession) with
  | .ok text => some text
  | .error _ => none

/-- The environment's verdict for one item of the batch:
`ok content` — `get_genbank_content` returned this text;
`failed` — `get_genbank_content` returned `None`;
`fault msg` — an unexpected exception with description `msg` escaped to the
item-level `except Exception` handler of the loop body. -/
inductive FetchResult where
  | ok (content : String)
  | failed
  | fault (msg : String)
deriving Repr, DecidableEq

/-- One row of the result table, mirroring the dict
`{'ID': ..., 'SEQUENCE': ..., 'estado': ...}` appended by the loop.
The `estado` values are the code's literals: `"éxito"` (success),
`"secuencia no encontrada"` (not found), `"error"`. -/
structure ResultRow where
  ID : String
  SEQUENCE : String
  estado : String
deriving Repr, DecidableEq

/-- The body of one iteration of the loop in `scrape_ncbi_sequences`,
translated branch for branch; Python truthiness of `genbank_content` and
`sequence` becomes explicit emptiness tests on strings. -/
def processOne (fr : FetchResult) (accession : String) : ResultRow :=
  match fr with
  | .fault msg => ⟨">" ++ accession, "Error: " ++ msg, "error"⟩
  | .failed => ⟨">" ++ accession, "Error obteniendo GenBank", "error"⟩
  | .ok content =>
    if content = "" then
      ⟨">" ++ accession, "Error obteniendo GenBank", "error"⟩
    else
      match extract_cds_translation_genbank content with
      | some sequence =>
        if sequence = "" then
          ⟨">" ++ accession, "No encontrada en GenBank", "secuencia no encontrada"⟩
        else
          ⟨">" ++ accession, sequence, "éxito"⟩
      | none => ⟨">" ++ accession, "No encontrada en GenBank", "secuencia no encontrada"⟩

/-- The loop of `scrape_ncbi_sequences`, indexed by the position of the
current item so that the environment oracle can answer per call. -/
def scrapeAux (env : Nat → String → FetchResult) : Nat → List String → List ResultRow
  | _, [] => []
  | i, a :: rest => processOne (env i a) a :: scrapeAux env (i + 1) rest

/-- `scrape_ncbi_sequences` from `src/main.py`: one appended row per input
accession, in input order. -/
def scrape_ncbi_sequences (env : Nat → String → FetchResult)
    (accession_list : List String) : List ResultRow :=
  scrapeAux env 0 accession_list

/-- Observable events of one pipeline run: a row being appended, or the
`await asyncio.sleep(1)` pacing suspension (duration in seconds). -/
inductive Event where
  | emit (r : ResultRow)
  | sleep (duration : Nat)
deriving Repr, DecidableEq

/-- Whether an event is a pacing suspension. -/
def Event.isSleep : Event → Bool
  | .sleep _ => true
  | .emit _ => false

/-- The loop of `scrape_ncbi_sequences` as a trace of events: each iteration
appends its row and then — unconditionally, also after an error row and also
for the last item — performs `await asyncio.sleep(1)`. -/
def scrapeEventsAux (env : Nat → String → FetchResult) :
    Nat → List String → List Event
  | _, [] => []
  | i, a :: rest =>
      Event.emit (processOne (env i a) a) :: Event.sleep 1 ::
        scrapeEventsAux env (i + 1) rest

/-- The event trace of a whole pipeline run. -/
def scrapeEvents (env : Nat → String → FetchResult)
    (accession_list : List String) : List Event :=
  scrapeEventsAux env 0 accession_list

/-- Python `str.strip()` on the ASCII whitespace model: drop whitespace from
both ends. -/
def stripChars (l : List Char) : List Char :=
  ((l.dropWhile isSpace).reverse.dropWhile isSpace).reverse

/-- Python `str.split(',')`: split at every comma, keeping empty pieces
(so `"".split(',') == [""]`). -/
def splitComma : List Char → List (List Char)
  | [] => [[]]
  | c :: rest =>
    if c = ',' then [] :: splitComma rest
    else
      match splitComma rest with
      | t :: ts => (c :: t) :: ts
      | [] => [[c]]

/-- `leer_accesiones_desde_contenido` from `src/main.py`: strip the content;
if the stripped content is empty return `[]`; otherwise split on commas,
strip each token and keep only the tokens that are non-empty after
stripping. -/
def leer_accesiones_desde_contenido (contenido : String) : List String :=
  let stripped := stripChars contenido.data
  if stripped = [] then []
  else
    ((splitComma stripped).filter (fun t => !(stripChars t).isEmpty)).map
      (fun t => String.mk (stripChars t))

/-- The claim-side characterization used for C4: the content has, somewhere,
a case-insensitive `CDS` keyword followed by whitespace, and at offset ≥ 4
from it a case-insensitive occurrence of `/translation="` with a closing
`"` after its opening quote. -/
def hasCdsPair (l : List Char) : Bool :=
  (List.range l.length).any (fun i =>
    matchesCdsAt (l.drop i) &&
    (List.range l.length).any (fun j =>
      ciPrefix transTag (l.drop (i + 4 + j)) &&
        (l.drop (i + 4 + j + 14)).contains '"'))

/-! ## Helper lemmas -/

lemma scrapeAux_length (env : Nat → String → FetchResult) :
    ∀ (l : List String) (i0 : Nat), (scrapeAux env i0 l).length = l.length := by
  intro l
  induction l with
  | nil => intro i0; rfl
  | cons a rest ih => intro i0; simp [scrapeAux, ih]

lemma scrapeAux_getElem? (env : Nat → String → FetchResult) :
    ∀ (l : List String) (i0 i : Nat),
      (scrapeAux env i0 l)[i]? =
        (l[i]?).map (fun a => processOne (env (i0 + i) a) a) := by
  intro l
  induction l with
  | nil => intro i0 i; simp [scrapeAux]
  | cons a rest ih =>
      intro i0 i
      cases i with
      | zero => simp [scrapeAux]
      | succ j =>
          simp only [scrapeAux, List.getElem?_cons_succ, ih (i0 + 1) j]
          have h : i0 + 1 + j = i0 + (j + 1) := by omega
          rw [h]

lemma scrape_getElem? (env : Nat → String → FetchResult) (l : List String) (i : Nat) :
    (scrape_ncbi_sequences env l)[i]? =
      (l[i]?).map (fun a => processOne (env i a) a) := by
  rw [scrape_ncbi_sequences, scrapeAux_getElem?]
  simp

lemma processOne_ID (fr : FetchResult) (a : String) :
    (processOne fr a).ID = ">" ++ a := by
  cases fr with
  | fault msg => rfl
  | failed => rfl
  | ok content =>
      by_cases hc : content = ""
      · simp [processOne, hc]
      · cases hx : extract_cds_translation_genbank content with
        | none => simp [processOne, hc, hx]
        | some s =>
            by_cases hs : s = "" <;> simp [processOne, hc, hx, hs]

lemma processOne_ok_of_extract_none {content : String} (a : String)
    (hne : content ≠ "")
    (h : extract_cds_translation_genbank content = none) :
    processOne (FetchResult.ok content) a =
      ⟨">" ++ a, "No encontrada en GenBank", "secuencia no encontrada"⟩ := by
  simp [processOne, hne, h]

lemma scrapeEventsAux_eq (env : Nat → String → FetchResult) :
    ∀ (l : List String) (i0 : Nat),
      scrapeEventsAux env i0 l =
        (scrapeAux env i0 l).flatMap (fun r => [Event.emit r, Event.sleep 1]) := by
  intro l
  induction l with
  | nil => intro i0; rfl
  | cons a rest ih => intro i0; simp [scrapeEventsAux, scrapeAux, ih]

lemma scrapeEventsAux_sleep_count (env : Nat → String → FetchResult) :
    ∀ (l : List String) (i0 : Nat),
      ((scrapeEventsAux env i0 l).filter Event.isSleep).length = l.length := by
  intro l
  induction l with
  | nil => intro i0; rfl
  | cons a rest ih =>
      intro i0
      simp [scrapeEventsAux, Event.isSleep, ih]

/-! ## Claim theorems -/

/-- C1: for every environment and every input list of accessions, the batch
run produces exactly one row per input accession, in input order: the result
has the same length as the input, and the row at index `i` is exactly the
processing of input `i` (its `ID` field is `">" ++` that accession), so
nothing is reordered, deduplicated or dropped — also when fetches fail or
faults occur, since `env` is arbitrary. -/
theorem c1_one_row_per_accession (env : Nat → String → FetchResult)
    (l : List String) :
    (scrape_ncbi_sequences env l).length = l.length ∧
    ∀ i a, l[i]? = some a →
      (scrape_ncbi_sequences env l)[i]? = some (processOne (env i a) a) ∧
      ((scrape_ncbi_sequences env l)[i]?).map ResultRow.ID = some (">" ++ a) := by
  refine ⟨scrapeAux_length env l 0, ?_⟩
  intro i a ha
  rw [scrape_getElem?, ha]
  simp [processOne_ID]

/-- Witness for C1 at a concrete batch. -/
theorem c1_witness :
    (scrape_ncbi_sequences (fun _ _ => FetchResult.failed) ["A", "B"]).length = 2 ∧
    (scrape_ncbi_sequences (fun _ _ => FetchResult.failed) ["A", "B"])[1]? =
      some (processOne FetchResult.failed "B") := by
  have h := c1_one_row_per_accession (fun _ _ => FetchResult.failed) ["A", "B"]
  exact ⟨h.1, (h.2 1 "B" rfl).1⟩

/-- C2: if the environment injects an unexpected fault at one position `k` of
the batch and agrees with a fault-free environment everywhere else, the run
still yields one row per item; row `k` is an `error` row whose `SEQUENCE`
embeds the fault's description (`"Error: " ++ msg`, from the f-string
`f'Error: {str(e)}'`), and every other row is exactly what the fault-free
environment produces. -/
theorem c2_fault_is_isolated (env envF : Nat → String → FetchResult)
    (l : List String) (k : Nat) (msg : String)
    (hagree : ∀ i a, i ≠ k → envF i a = env i a)
    (hfault : ∀ a, envF k a = FetchResult.fault msg) :
    (scrape_ncbi_sequences envF l).length = l.length ∧
    (∀ a, l[k]? = some a →
      (scrape_ncbi_sequences envF l)[k]? =
        some ⟨">" ++ a, "Error: " ++ msg, "error"⟩) ∧
    ∀ i, i ≠ k →
      (scrape_ncbi_sequences envF l)[i]? = (scrape_ncbi_sequences env l)[i]? := by
  refine ⟨scrapeAux_length envF l 0, ?_, ?_⟩
  · intro a ha
    rw [scrape_getElem?, ha]
    simp [hfault, processOne]
  · intro i hi
    rw [scrape_getElem?, scrape_getElem?]
    cases hli : l[i]? with
    | none => simp
    | some a => simp [hagree i a hi]

/-- A fault-free concrete environment for the C2 witness. -/
def envOkC : Nat → String → FetchResult :=
  fun _ _ => FetchResult.ok "CDS /translation=\"MKV\""

/-- The same environment with a fault injected at position 1. -/
def envFault1 : Nat → String → FetchResult :=
  fun i a => if i = 1 then FetchResult.fault "boom" else envOkC i a

/-- Witness for C2: a 3-item batch where item 2 (index 1) faults still
yields its row as an `error` row, and items 1 and 3 are unaffected. -/
theorem c2_witness :
    (scrape_ncbi_sequences envFault1 ["A", "B", "C"])[1]? =
      some ⟨">B", "Error: boom", "error"⟩ ∧
    (scrape_ncbi_sequences envFault1 ["A", "B", "C"])[0]? =
      (scrape_ncbi_sequences envOkC ["A", "B", "C"])[0]? ∧
    (scrape_ncbi_sequences envFault1 ["A", "B", "C"])[2]? =
      (scrape_ncbi_sequences envOkC ["A", "B", "C"])[2]? := by
  have h := c2_fault_is_isolated envOkC envFault1 ["A", "B", "C"] 1 "boom"
    (fun i a hi => by simp [envFault1, hi]) (fun a => by simp [envFault1])
  refine ⟨?_, h.2.2 0 (by decide), h.2.2 2 (by decide)⟩
  have h1 := h.2.1 "B" rfl
  simpa using h1

/-- C3: when the HTTP oracle fails for an accession's URL (timeout, non-2xx
status mapped to an exception by `raise_for_status`, or a transport error),
`get_genbank_content` swallows the failure and returns `none` rather than
re-raising; and for any batch position whose fetch outcome is `failed`, the
pipeline appends the row `(">" ++ accession, "Error obteniendo GenBank",
"error")` — the fixed retrieval-failure placeholder with status `error`.
Both functions are total, so the pipeline call never throws here. -/
theorem c3_fetch_failure_error_row (http : String → Except String String)
    (accession e : String)
    (hhttp : http (ncbiUrl accession) = Except.error e)
    (env : Nat → String → FetchResult) (l : List String) (i : Nat) (a : String)
    (ha : l[i]? = some a) (henv : env i a = FetchResult.failed) :
    get_genbank_content http accession = none ∧
    (scrape_ncbi_sequences env l)[i]? =
      some ⟨">" ++ a, "Error obteniendo GenBank", "error"⟩ := by
  constructor
  · rw [get_genbank_content, hhttp]
  · rw [scrape_getElem?, ha]
    simp [henv, processOne]

/-- Witness for C3 at a concrete failing oracle and batch. -/
theorem c3_witness :
    get_genbank_content (fun _ => Except.error "timeout") "AB1" = none ∧
    (scrape_ncbi_sequences (fun _ _ => FetchResult.failed) ["AB1"])[0]? =
      some ⟨">AB1", "Error obteniendo GenBank", "error"⟩ :=
  c3_fetch_failure_error_row (fun _ => Except.error "timeout") "AB1" "timeout"
    rfl (fun _ _ => FetchResult.failed) ["AB1"] 0 "AB1" rfl rfl

/-- C5: the quoted payload is stripped of all whitespace, including an
embedded newline from wrapped formatting: on content containing
`CDS ... /translation="ABC DE\nF"` (with a literal line break inside the
quotes) extraction returns exactly `"ABCDEF"`. -/
theorem c5_whitespace_stripped :
    extract_cds_translation_genbank "CDS ... /translation=\"ABC DE\nF\"" =
      some "ABCDEF" := by
  decide

/-- C6: matching is case-insensitive and spans line boundaries: a lowercase
`cds` keyword separated from `/translation="XYZ"` by several line breaks
still matches and yields `"XYZ"`. -/
theorem c6_case_insensitive_multiline :
    extract_cds_translation_genbank "cds  \n x\n /translation=\"XYZ\"" =
      some "XYZ" := by
  decide

/-- C9: the loop performs exactly one fixed-length pacing suspension
(`asyncio.sleep(1)`) after every item — the event trace is exactly, for each
produced row in order, the row emission followed by one `sleep 1`, so an
`n`-item batch contains exactly `n` sleeps, skipped neither on error rows
nor after the last item. -/
theorem c9_one_sleep_per_item (env : Nat → String → FetchResult)
    (l : List String) :
    scrapeEvents env l =
      (scrape_ncbi_sequences env l).flatMap
        (fun r => [Event.emit r, Event.sleep 1]) ∧
    ((scrapeEvents env l).filter Event.isSleep).length = l.length := by
  exact ⟨scrapeEventsAux_eq env l 0, scrapeEventsAux_sleep_count env l 0⟩

/-- C10: content whose matching CDS feature carries an empty quoted
translation (`/translation=""`) makes extraction return `some ""`, and the
pipeline — because the success branch tests Python truthiness of the
extracted string — classifies the item as not-found (`estado = "secuencia no
encontrada"`, payload `"No encontrada en GenBank"`) rather than as a
success with an empty sequence. -/
theorem c10_empty_translation_is_not_found :
    extract_cds_translation_genbank "CDS  /translation=\"\"" = some "" ∧
    processOne (FetchResult.ok "CDS  /translation=\"\"") "X1" =
      ⟨">X1", "No encontrada en GenBank", "secuencia no encontrada"⟩ := by
  constructor
  · decide
  · decide

/-! ## Lemmas about the regex search, for C4 and C7 -/

lemma mem_quote_of_takeUntilQuote :
    ∀ {l p : List Char}, takeUntilQuote l = some p → '"' ∈ l := by
  intro l
  induction l with
  | nil => intro p h; simp [takeUntilQuote] at h
  | cons c rest ih =>
      intro p h
      by_cases hc : c = '"'
      · exact hc ▸ List.mem_cons_self c rest
      · rw [takeUntilQuote, if_neg hc] at h
        cases ht : takeUntilQuote rest with
        | none => rw [ht] at h; simp at h
        | some q => exact List.mem_cons_of_mem c (ih ht)

lemma findTranslation_some :
    ∀ {l p : List Char}, findTranslation l = some p →
      ∃ j, ciPrefix transTag (l.drop j) = true ∧ '"' ∈ l.drop (j + 14) := by
  intro l
  induction l with
  | nil => intro p h; simp [findTranslation] at h
  | cons c rest ih =>
      intro p h
      by_cases hp : ciPrefix transTag (c :: rest)
      · rw [findTranslation, if_pos hp] at h
        cases ht : takeUntilQuote ((c :: rest).drop 14) with
        | some payload =>
            exact ⟨0, by simpa using hp, by simpa using mem_quote_of_takeUntilQuote ht⟩
        | none =>
            rw [ht] at h
            obtain ⟨j, h1, h2⟩ := ih h
            refine ⟨j + 1, by simpa [List.drop_succ_cons] using h1, ?_⟩
            have e : j + 1 + 14 = (j + 14) + 1 := by omega
            rw [e, List.drop_succ_cons]
            exact h2
      · rw [findTranslation, if_neg hp] at h
        obtain ⟨j, h1, h2⟩ := ih h
        refine ⟨j + 1, by simpa [List.drop_succ_cons] using h1, ?_⟩
        have e : j + 1 + 14 = (j + 14) + 1 := by omega
        rw [e, List.drop_succ_cons]
        exact h2

lemma matchesCdsAt_ne_nil {l : List Char} (h : matchesCdsAt l = true) : l ≠ [] := by
  intro e
  rw [e] at h
  simp [matchesCdsAt] at h

lemma hasCdsPair_intro {l : List Char} {i j : Nat}
    (hm : matchesCdsAt (l.drop i) = true)
    (hpre : ciPrefix transTag (l.drop (i + 4 + j)) = true)
    (hq : '"' ∈ l.drop (i + 4 + j + 14)) : hasCdsPair l = true := by
  have hi : i < l.length := by
    by_contra hle
    exact matchesCdsAt_ne_nil hm (List.drop_eq_nil_iff.mpr (by omega))
  have hj : j < l.length := by
    by_contra hle
    have hnil : l.drop (i + 4 + j) = [] := List.drop_eq_nil_iff.mpr (by omega)
    rw [hnil] at hpre
    exact absurd hpre (by decide)
  rw [hasCdsPair, List.any_eq_true]
  refine ⟨i, List.mem_range.mpr hi, ?_⟩
  rw [Bool.and_eq_true]
  refine ⟨hm, List.any_eq_true.mpr ⟨j, List.mem_range.mpr hj, ?_⟩⟩
  rw [Bool.and_eq_true]
  refine ⟨hpre, ?_⟩
  simpa [List.contains, List.elem_iff] using hq

lemma hasCdsPair_elim {l : List Char} (h : hasCdsPair l = true) :
    ∃ i j, matchesCdsAt (l.drop i) = true ∧
      ciPrefix transTag (l.drop (i + 4 + j)) = true ∧
      '"' ∈ l.drop (i + 4 + j + 14) := by
  rw [hasCdsPair, List.any_eq_true] at h
  obtain ⟨i, _, hc⟩ := h
  rw [Bool.and_eq_true, List.any_eq_true] at hc
  obtain ⟨hm, j, _, hc2⟩ := hc
  rw [Bool.and_eq_true] at hc2
  refine ⟨i, j, hm, hc2.1, ?_⟩
  simpa [List.contains, List.elem_iff] using hc2.2

lemma cdsSearch_some_hasCdsPair :
    ∀ {l p : List Char}, cdsSearch l = some p → hasCdsPair l = true := by
  intro l
  induction l with
  | nil => intro p h; simp [cdsSearch] at h
  | cons c rest ih =>
      intro p h
      by_cases hm : matchesCdsAt (c :: rest)
      · rw [cdsSearch, if_pos hm] at h
        cases hf : findTranslation (rest.drop 3) with
        | some payload =>
            obtain ⟨j, h1, h2⟩ := findTranslation_some hf
            rw [List.drop_drop] at h1 h2
            refine hasCdsPair_intro (i := 0) (j := j) (by simpa using hm) ?_ ?_
            · have e : 0 + 4 + j = (3 + j) + 1 := by omega
              rw [e, List.drop_succ_cons]
              exact h1
            · have e : 0 + 4 + j + 14 = (3 + (j + 14)) + 1 := by omega
              rw [e, List.drop_succ_cons]
              have e2 : 3 + (j + 14) = 3 + j + 14 := by omega
              rw [e2]
              exact h2
        | none =>
            rw [hf] at h
            obtain ⟨i, j, g1, g2, g3⟩ := hasCdsPair_elim (ih h)
            refine hasCdsPair_intro (i := i + 1) (j := j) ?_ ?_ ?_
            · rw [List.drop_succ_cons]; exact g1
            · have e : i + 1 + 4 + j = (i + 4 + j) + 1 := by omega
              rw [e, List.drop_succ_cons]; exact g2
            · have e : i + 1 + 4 + j + 14 = (i + 4 + j + 14) + 1 := by omega
              rw [e, List.drop_succ_cons]; exact g3
      · rw [cdsSearch, if_neg hm] at h
        obtain ⟨i, j, g1, g2, g3⟩ := hasCdsPair_elim (ih h)
        refine hasCdsPair_intro (i := i + 1) (j := j) ?_ ?_ ?_
        · rw [List.drop_succ_cons]; exact g1
        · have e : i + 1 + 4 + j = (i + 4 + j) + 1 := by omega
          rw [e, List.drop_succ_cons]; exact g2
        · have e : i + 1 + 4 + j + 14 = (i + 4 + j + 14) + 1 := by omega
          rw [e, List.drop_succ_cons]; exact g3

/-- C4: when the content has no CDS feature followed by a quoted
`/translation=` attribute anywhere (no position with a case-insensitive
`CDS` + whitespace, a later `/translation="` occurrence, and a closing
quote), extraction returns `none`, and the pipeline classifies such an item
as not-found: payload `"No encontrada en GenBank"`, estado `"secuencia no
encontrada"` — distinct from the `"error"` status used for fetch failures. -/
theorem c4_no_pair_not_found (content accession : String)
    (h : hasCdsPair content.data = false) :
    extract_cds_translation_genbank content = none ∧
    (content ≠ "" →
      processOne (FetchResult.ok content) accession =
        ⟨">" ++ accession, "No encontrada en GenBank",
          "secuencia no encontrada"⟩) := by
  have hx : extract_cds_translation_genbank content = none := by
    rw [extract_cds_translation_genbank]
    cases hs : cdsSearch content.data with
    | none => rfl
    | some p =>
        rw [cdsSearch_some_hasCdsPair hs] at h
        simp at h
  exact ⟨hx, fun hne => processOne_ok_of_extract_none accession hne hx⟩

/-- Witness for C4 at concrete pair-free content. -/
theorem c4_witness :
    extract_cds_translation_genbank "LOCUS AB000001; no features here" = none ∧
    processOne (FetchResult.ok "LOCUS AB000001; no features here") "AB000001" =
      ⟨">AB000001", "No encontrada en GenBank", "secuencia no encontrada"⟩ := by
  have h := c4_no_pair_not_found "LOCUS AB000001; no features here" "AB000001"
    (by decide)
  exact ⟨h.1, h.2 (by decide)⟩

/-- The first complete feature/attribute pair of the C7 statement:
`CDS /translation="` followed by the payload and its closing quote. -/
def pairHead : List Char := 'C' :: 'D' :: 'S' :: ' ' :: transTag

lemma takeUntilQuote_append {t : List Char} (r : List Char) (hq : '"' ∉ t) :
    takeUntilQuote (t ++ '"' :: r) = some t := by
  induction t with
  | nil => simp [takeUntilQuote]
  | cons c cs ih =>
      have hc : c ≠ '"' := fun e => hq (e ▸ List.mem_cons_self c cs)
      have hq' : '"' ∉ cs := fun m => hq (List.mem_cons_of_mem c m)
      rw [List.cons_append, takeUntilQuote, if_neg hc, ih hq']
      rfl

lemma findTranslation_at_tag (t r : List Char) (hq : '"' ∉ t) :
    findTranslation (transTag ++ (t ++ '"' :: r)) = some t := by
  have hpre : ciPrefix transTag (transTag ++ (t ++ '"' :: r)) = true := rfl
  have hdrop : (transTag ++ (t ++ '"' :: r)).drop 14 = t ++ '"' :: r :=
    List.drop_left transTag _
  rw [show transTag ++ (t ++ '"' :: r) =
      '/' :: (['t', 'r', 'a', 'n', 's', 'l', 'a', 't', 'i', 'o', 'n', '=', '"'] ++
        (t ++ '"' :: r)) from rfl] at hpre hdrop ⊢
  rw [findTranslation, if_pos hpre, hdrop, takeUntilQuote_append r hq]

/-- C7: when the content is a complete `CDS /translation="..."` pair followed
by absolutely anything — in particular by further CDS features with their own
quoted translations — extraction returns the first pair's payload
(whitespace-stripped) and never a later pair's. -/
theorem c7_first_match_only (t rest : List Char) (hq : '"' ∉ t) :
    extract_cds_translation_genbank (String.mk (pairHead ++ (t ++ '"' :: rest))) =
      some (String.mk (t.filter (fun c => !isSpace c))) := by
  have hsearch : cdsSearch (pairHead ++ (t ++ '"' :: rest)) = some t := by
    rw [show pairHead ++ (t ++ '"' :: rest) =
        'C' :: 'D' :: 'S' :: ' ' :: (transTag ++ (t ++ '"' :: rest)) from by
      simp [pairHead]]
    rw [cdsSearch]
    have hm : matchesCdsAt
        ('C' :: 'D' :: 'S' :: ' ' :: (transTag ++ (t ++ '"' :: rest))) = true := rfl
    rw [if_pos hm]
    have hdrop3 : ('D' :: 'S' :: ' ' :: (transTag ++ (t ++ '"' :: rest))).drop 3 =
        transTag ++ (t ++ '"' :: rest) := rfl
    rw [hdrop3, findTranslation_at_tag t rest hq]
  rw [extract_cds_translation_genbank]
  rw [show (String.mk (pairHead ++ (t ++ '"' :: rest))).data =
      pairHead ++ (t ++ '"' :: rest) from rfl]
  rw [hsearch]

/-- Witness for C7: two distinct complete pairs; only the first is
reported. -/
theorem c7_witness :
    extract_cds_translation_genbank
        (String.mk (pairHead ++ ("AAA".data ++ '"' :: " CDS x /translation=\"BBB\"".data))) =
      some (String.mk ("AAA".data.filter (fun c => !isSpace c))) :=
  c7_first_match_only "AAA".data " CDS x /translation=\"BBB\"".data (by decide)

/-- C8: the accession parser splits on commas, trims surrounding whitespace
from each token and discards empty tokens — on
`" AB123, CD456 ,, EF789 "` it returns exactly
`["AB123", "CD456", "EF789"]`, on the empty input it returns `[]`, and on
any whitespace-only input it returns `[]`. -/
theorem c8_comma_split_trim :
    leer_accesiones_desde_contenido " AB123, CD456 ,, EF789 " =
      ["AB123", "CD456", "EF789"] ∧
    leer_accesiones_desde_contenido "" = [] ∧
    ∀ s : String, (∀ c ∈ s.data, isSpace c = true) →
      leer_accesiones_desde_contenido s = [] := by
  refine ⟨by decide, by decide, ?_⟩
  intro s hs
  have hnil : stripChars s.data = [] := by
    rw [stripChars, List.dropWhile_eq_nil_iff.mpr hs]
    rfl
  rw [leer_accesiones_desde_contenido]
  simp [hnil]

/-- Witness for C8's whitespace-only case. -/
theorem c8_witness : leer_accesiones_desde_contenido " \t\n " = [] := by
  have h := c8_comma_split_trim
  exact h.2.2 " \t\n " (by decide)

end NCBI
